import Mathlib

/-!
Verification of the coordinate-backfill pipeline (geocode_ll.py).

The script selects table rows missing a coordinate, builds an address query
string per row, calls an external geocoding service, retries once on a quota
signal, writes both coordinates plus a timestamp for matched rows inside one
transaction, and commits at the end; any uncontained error rolls the whole
transaction back.

The embedding below models the pure parts directly (make_query, the response
classification in geocode) and the effectful parts by explicit state passing:
the database is a list of rows, the HTTP layer is an oracle giving the outcome
of each outbound call, writes are an oracle saying whether each UPDATE
statement succeeds, and observable actions (HTTP calls, sleeps, updates,
progress prints) are recorded in an event trace.
-/

namespace GeocodeLL


/-- Coordinates are modelled as rationals (the script stores arbitrary
numeric values; no arithmetic is performed on them). -/
abbrev Coord := Rat

/-- One row of public.apartment_properties_listings as fetched by the script:
id, name, the four address columns, and the two nullable coordinate columns.
`updated_at` models the last-modified timestamp column. -/
structure DbRow where
  id : Nat
  name : Option String
  address : Option String
  city : Option String
  state : Option String
  zip_code : Option String
  latitude : Option Coord
  longitude : Option Coord
  updated_at : Nat
  deriving Repr, DecidableEq

/-- `make_query(row)`: walk (NAME_COL,) + ADDR_COLS in order, append each
value that is truthy (present and non-empty), and join with ", ". -/
def make_query (row : DbRow) : String :=
  let parts : List String :=
    [row.name, row.address, row.city, row.state, row.zip_code].foldl
      (fun acc v =>
        match v with
        | some s => if s ≠ "" then acc ++ [s] else acc
        | none => acc) []
  String.intercalate ", " parts

/-- geometry.location of one provider result. -/
structure Location where
  lat : Coord
  lng : Coord
  deriving Repr, DecidableEq

/-- One element of the provider's results array (only geometry.location is
read by the script). -/
structure GeoResult where
  location : Location
  deriving Repr, DecidableEq

/-- The parsed JSON body of a provider response: a status string and a
results array. -/
structure GeoResponse where
  status : String
  results : List GeoResult
  deriving Repr, DecidableEq

/-- Failure modes of one geocode call: the quota RuntimeError raised by the
script itself (carrying the status string), or any other exception from the
HTTP layer (connection failure, raise_for_status, malformed body). -/
inductive GeoError where
  | quotaExceeded (status : String)
  | transport
  deriving Repr, DecidableEq

/-- The response-classification part of `geocode(q)` (lines 26-31):
status "OK" with a non-empty results array returns the first result's
coordinates; status OVER_QUERY_LIMIT or RESOURCE_EXHAUSTED raises
RuntimeError(status); anything else returns (None, None). -/
def geocode (data : GeoResponse) : Except GeoError (Option Coord × Option Coord) :=
  if h : data.status = "OK" ∧ data.results ≠ [] then
    let loc := (data.results.head h.2).location
    .ok (some loc.lat, some loc.lng)
  else if data.status = "OVER_QUERY_LIMIT" ∨ data.status = "RESOURCE_EXHAUSTED" then
    .error (.quotaExceeded data.status)
  else
    .ok (none, none)

/-- Outcome of one outbound HTTP call: either the transport layer fails
(requests exception, non-2xx status, body that does not parse), or a parsed
response body is obtained. -/
inductive CallOutcome where
  | transportFail
  | response (data : GeoResponse)
  deriving Repr, DecidableEq

/-- Observable actions of a run, in order. -/
inductive Event where
  | httpCall (q : String)
  | sleepQuota
  | sleepPace
  | update (id : Nat) (lat lng : Coord)
  | progress (i total updated : Nat)
  deriving Repr, DecidableEq

/-- The run's external environment: what the n-th outbound geocode call
returns, whether the n-th UPDATE statement succeeds, and the transaction
timestamp used for NOW(). -/
structure Env where
  geocodeOracle : Nat → CallOutcome
  writeOk : Nat → Bool
  now : Nat

/-- Mutable state threaded through the row loop: the table as seen inside
the open transaction, the updated counter, the number of outbound calls made
so far, and the event trace. -/
structure LoopState where
  db : List DbRow
  updated : Nat
  calls : Nat
  events : List Event
  deriving Repr, DecidableEq

/-- Identifiers carried by the update events of a trace, in order. -/
def updatedIds (es : List Event) : List Nat :=
  es.filterMap (fun e =>
    match e with
    | .update id _ _ => some id
    | _ => none)

/-- Whether an event is an outbound HTTP call. -/
def isHttp : Event → Bool
  | .httpCall _ => true
  | _ => false

/-- Number of outbound HTTP calls recorded in a trace. -/
def countHttp (es : List Event) : Nat := (es.filter isHttp).length

/-- Whether an event is the per-row pacing sleep. -/
def isPace : Event → Bool
  | .sleepPace => true
  | _ => false

/-- Number of pacing sleeps recorded in a trace. -/
def countPace (es : List Event) : Nat := (es.filter isPace).length

/-- Errors that escape the per-row handling and reach the outer
try/except of main: a RuntimeError or transport error raised by the retry
call, or a store error from an UPDATE statement. -/
inductive RunError where
  | quota (status : String)
  | transport
  | store
  deriving Repr, DecidableEq

/-- The fetch query (lines 46-58): rows WHERE latitude IS NULL OR longitude
IS NULL, ORDER BY id ascending. -/
def fetchRows (db : List DbRow) : List DbRow :=
  List.insertionSort (fun a b => a.id ≤ b.id)
    (db.filter (fun r => r.latitude.isNone || r.longitude.isNone))

/-- The UPDATE statement (lines 82-89): set latitude, longitude and
updated_at = NOW() on every row matching the identifier. -/
def applyUpdate (db : List DbRow) (id : Nat) (lat lng : Coord) (now : Nat) : List DbRow :=
  db.map (fun r =>
    if r.id = id then
      { r with latitude := some lat, longitude := some lng, updated_at := now }
    else r)

/-- The outcome of the n-th outbound geocode call, classified through
`geocode`: the transport layer may fail, otherwise the parsed body is
classified. -/
def callResult (env : Env) (n : Nat) : Except GeoError (Option Coord × Option Coord) :=
  match env.geocodeOracle n with
  | .transportFail => .error .transport
  | .response d => geocode d

/-- The progress print at i % 25 == 0 or i == total. -/
def progressMaybe (i total : Nat) (st : LoopState) : LoopState :=
  if i % 25 = 0 ∨ i = total then
    { st with events := st.events ++ [.progress i total st.updated] }
  else st

/-- How an exception raised by the retry call maps to the error escaping
the row loop: a quota RuntimeError or any transport exception propagates
as itself (the except clauses at lines 73 and 77 do not cover exceptions
raised inside the RuntimeError handler). -/
def runErrorOf : GeoError → RunError
  | .quotaExceeded s => .quota s
  | .transport => .transport

/-- The tail of every non-skipped iteration: the conditional progress
print (lines 94-95) followed by the unconditional pacing sleep
(line 97). -/
def paceAfter (i total : Nat) (st : LoopState) : LoopState :=
  let st3 := progressMaybe i total st
  { st3 with events := st3.events ++ [.sleepPace] }

/-- Lines 81-97, after `lat, lng` are resolved: a fully resolved pair
issues the UPDATE (which may fail with a store error), increments the
counter, prints progress and runs the pacing sleep; otherwise the no-match
message is printed, then progress and the pacing sleep. -/
def finishRow (env : Env) (i total : Nat) (row : DbRow)
    (p : Option Coord × Option Coord) (st1 : LoopState) :
    Except (RunError × LoopState) LoopState :=
  match p with
  | (some lat, some lng) =>
    if env.writeOk st1.updated then
      .ok (paceAfter i total { st1 with
        db := applyUpdate st1.db row.id lat lng env.now,
        updated := st1.updated + 1,
        events := st1.events ++ [.update row.id lat lng] })
    else
      .error (.store, st1)
  | _ =>
    .ok (paceAfter i total st1)

/-- One iteration of the row loop (lines 64-97). An empty query skips the
row (progress print, continue — before the pacing sleep). Otherwise the
first geocode call is tried: a quota RuntimeError triggers a 10s sleep and a
retry whose own failure (of any kind) propagates uncontained; any other
exception from the first call is caught and the row is treated as
unmatched. -/
def processRow (env : Env) (i total : Nat) (row : DbRow) (st : LoopState) :
    Except (RunError × LoopState) LoopState :=
  let q := make_query row
  if q = "" then
    .ok (progressMaybe i total st)
  else
    let st1 := { st with calls := st.calls + 1, events := st.events ++ [.httpCall q] }
    match callResult env st.calls with
    | .ok p => finishRow env i total row p st1
    | .error (.quotaExceeded _) =>
      let st2 := { st with calls := st.calls + 2, events := st.events ++ [.httpCall q, .sleepQuota, .httpCall q] }
      match callResult env (st.calls + 1) with
      | .ok p => finishRow env i total row p st2
      | .error e2 => .error (runErrorOf e2, st2)
    | .error .transport => finishRow env i total row (none, none) st1

/-- The row loop: iterate the fetched rows in order with 1-based index,
stopping at the first uncontained error. -/
def runLoop (env : Env) (total : Nat) :
    List DbRow → Nat → LoopState → Except (RunError × LoopState) LoopState
  | [], _, st => .ok st
  | row :: rest, i, st =>
    match processRow env i total row st with
    | .error e => .error e
    | .ok st' => runLoop env total rest (i + 1) st'

/-- Result of one whole run: the committed table state, the final updated
counter, the event trace, whether the run aborted (and with what), and
whether the connection was closed. -/
structure RunResult where
  db : List DbRow
  updated : Nat
  events : List Event
  aborted : Option RunError
  connClosed : Bool
  deriving Repr

/-- `main()` after config checks (lines 40-106): fetch the candidate rows,
run the loop inside one transaction, commit on success; on any escaped
exception roll back (the table reverts to its pre-run state) and re-raise;
close the connection on both paths. -/
def main_run (env : Env) (db0 : List DbRow) : RunResult :=
  match runLoop env (fetchRows db0).length (fetchRows db0) 1
      { db := db0, updated := 0, calls := 0, events := [] } with
  | .ok st =>
    { db := st.db, updated := st.updated, events := st.events,
      aborted := none, connClosed := true }
  | .error (e, st) =>
    { db := db0, updated := st.updated, events := st.events,
      aborted := some e, connClosed := true }

/-- A candidate row with a full address and both coordinates missing. -/
def rowMaple : DbRow :=
  { id := 1, name := some "Maple Court", address := some "10 Elm St",
    city := some "Springfield", state := none, zip_code := some "00001",
    latitude := none, longitude := none, updated_at := 0 }

/-- A candidate row with every address field absent or empty. -/
def rowBlank : DbRow :=
  { id := 2, name := none, address := some "", city := none, state := none,
    zip_code := none, latitude := none, longitude := none, updated_at := 0 }

/-- A candidate row that already has a longitude but no latitude. -/
def rowHalf : DbRow :=
  { id := 3, name := some "Oak Row", address := none, city := none,
    state := none, zip_code := none, latitude := none, longitude := some 7,
    updated_at := 0 }

/-- The initial loop state over a given table. -/
def initState (db : List DbRow) : LoopState :=
  { db := db, updated := 0, calls := 0, events := [] }

/-- An environment whose provider always signals OVER_QUERY_LIMIT. -/
def envQuota : Env :=
  { geocodeOracle := fun _ =>
      .response { status := "OVER_QUERY_LIMIT", results := [] },
    writeOk := fun _ => true, now := 9 }

/-- An environment whose provider always matches at coordinates (2, 3). -/
def envMatch : Env :=
  { geocodeOracle := fun _ =>
      .response { status := "OK", results := [{ location := { lat := 2, lng := 3 } }] },
    writeOk := fun _ => true, now := 9 }

/-- An environment whose transport layer always fails. -/
def envDown : Env :=
  { geocodeOracle := fun _ => .transportFail, writeOk := fun _ => true, now := 9 }

/-- An environment whose provider always matches but whose store rejects
every UPDATE after the first one. -/
def envStoreFail : Env :=
  { geocodeOracle := fun _ =>
      .response { status := "OK", results := [{ location := { lat := 2, lng := 3 } }] },
    writeOk := fun n => n == 0, now := 9 }

/-- The state produced by a successful Maple Court iteration under the
always-matching provider. -/
def stMapleDone : LoopState :=
  match processRow envMatch 1 1 rowMaple (initState [rowMaple]) with
  | .ok st => st
  | .error _ => initState []

/-- A row with both coordinate columns set. -/
def bothSome (r : DbRow) : Prop := r.latitude.isSome ∧ r.longitude.isSome

/-- Loop invariant for C8: every table row whose identifier received an
UPDATE in this run's trace has both coordinates set. -/
def UpdatedSet (st : LoopState) : Prop :=
  ∀ r ∈ st.db, r.id ∈ updatedIds st.events → bothSome r

/-- Row-wise relation for C9: a table row either kept the original row's
coordinate columns or had both set; identifiers are never changed. -/
def keptOrSet (r0 r : DbRow) : Prop :=
  r.id = r0.id ∧
    ((r.latitude = r0.latitude ∧ r.longitude = r0.longitude) ∨ bothSome r)

/-- The provider response used by the always-matching environment. -/
def respMatch : GeoResponse :=
  { status := "OK", results := [{ location := { lat := 2, lng := 3 } }] }

/-! ### Helper lemmas -/

/-- On status "OK" with a non-empty results array, `geocode` returns the
first result's coordinates. -/
lemma geocode_ok_head (d : GeoResponse) (hok : d.status = "OK")
    (r : GeoResult) (rest : List GeoResult) (hres : d.results = r :: rest) :
    geocode d = .ok (some r.location.lat, some r.location.lng) := by
  unfold geocode
  have h : d.status = "OK" ∧ d.results ≠ [] := ⟨hok, by simp [hres]⟩
  rw [dif_pos h]
  simp [hres]

/-- On a quota status, `geocode` raises the quota error. -/
lemma geocode_quota (d : GeoResponse)
    (h : d.status = "OVER_QUERY_LIMIT" ∨ d.status = "RESOURCE_EXHAUSTED") :
    geocode d = .error (.quotaExceeded d.status) := by
  unfold geocode
  have hne : ¬ (d.status = "OK" ∧ d.results ≠ []) := by
    rintro ⟨hok, -⟩
    rcases h with h | h <;> rw [hok] at h <;> exact absurd h (by decide)
  rw [dif_neg hne, if_pos h]

/-- On any status other than "OK" and the two quota codes, `geocode`
returns no match. -/
lemma geocode_other (d : GeoResponse) (h1 : d.status ≠ "OK")
    (h2 : d.status ≠ "OVER_QUERY_LIMIT") (h3 : d.status ≠ "RESOURCE_EXHAUSTED") :
    geocode d = .ok (none, none) := by
  unfold geocode
  rw [dif_neg (by rintro ⟨hok, -⟩; exact h1 hok), if_neg (by rintro (h | h) <;> [exact h2 h; exact h3 h])]

/-- On status "OK" with an empty results array, `geocode` returns no
match (the quota branch is not taken since "OK" is not a quota code). -/
lemma geocode_ok_empty (d : GeoResponse) (hok : d.status = "OK")
    (hres : d.results = []) :
    geocode d = .ok (none, none) := by
  unfold geocode
  rw [dif_neg (by rintro ⟨-, hne⟩; exact hne hres),
    if_neg (by rintro (h | h) <;> rw [hok] at h <;> exact absurd h (by decide))]

/-- The part accumulator of `make_query` collects exactly the present,
non-empty fields in order. -/
lemma foldl_parts (l : List (Option String)) (acc : List String) :
    l.foldl
      (fun acc v =>
        match v with
        | some s => if s ≠ "" then acc ++ [s] else acc
        | none => acc) acc
      = acc ++ (l.filterMap id).filter (fun s => s ≠ "") := by
  induction l generalizing acc with
  | nil => simp
  | cons h t ih =>
    cases h with
    | none => simpa using ih acc
    | some s =>
      rw [List.foldl_cons]
      show List.foldl _ (if s ≠ "" then acc ++ [s] else acc) t = _
      by_cases hs : s = ""
      · rw [if_neg (by simp [hs]), ih]
        simp [hs]
      · rw [if_pos (by simp [hs]), ih]
        simp [hs, List.filter_cons]

lemma countHttp_append (a b : List Event) :
    countHttp (a ++ b) = countHttp a + countHttp b := by
  simp [countHttp, List.filter_append]

lemma updatedIds_append (a b : List Event) :
    updatedIds (a ++ b) = updatedIds a ++ updatedIds b := by
  simp [updatedIds, List.filterMap_append]

@[simp] lemma progressMaybe_db (i total : Nat) (st : LoopState) :
    (progressMaybe i total st).db = st.db := by
  unfold progressMaybe; split <;> rfl

@[simp] lemma progressMaybe_updated (i total : Nat) (st : LoopState) :
    (progressMaybe i total st).updated = st.updated := by
  unfold progressMaybe; split <;> rfl

@[simp] lemma progressMaybe_calls (i total : Nat) (st : LoopState) :
    (progressMaybe i total st).calls = st.calls := by
  unfold progressMaybe; split <;> rfl

lemma progressMaybe_events (i total : Nat) (st : LoopState) :
    (progressMaybe i total st).events = st.events ∨
    (progressMaybe i total st).events = st.events ++ [.progress i total st.updated] := by
  unfold progressMaybe; split
  · exact Or.inr rfl
  · exact Or.inl rfl

@[simp] lemma updatedIds_progressMaybe (i total : Nat) (st : LoopState) :
    updatedIds (progressMaybe i total st).events = updatedIds st.events := by
  rcases progressMaybe_events i total st with h | h <;> rw [h]
  simp [updatedIds_append, updatedIds]

@[simp] lemma countHttp_progressMaybe (i total : Nat) (st : LoopState) :
    countHttp (progressMaybe i total st).events = countHttp st.events := by
  rcases progressMaybe_events i total st with h | h <;> rw [h]
  simp [countHttp_append, countHttp, isHttp]

lemma countPace_append (a b : List Event) :
    countPace (a ++ b) = countPace a + countPace b := by
  simp [countPace, List.filter_append]

@[simp] lemma countPace_progressMaybe (i total : Nat) (st : LoopState) :
    countPace (progressMaybe i total st).events = countPace st.events := by
  rcases progressMaybe_events i total st with h | h <;> rw [h]
  simp [countPace_append, countPace, isPace]

@[simp] lemma paceAfter_db (i total : Nat) (st : LoopState) :
    (paceAfter i total st).db = st.db := by
  simp [paceAfter]

@[simp] lemma paceAfter_updated (i total : Nat) (st : LoopState) :
    (paceAfter i total st).updated = st.updated := by
  simp [paceAfter]

@[simp] lemma paceAfter_calls (i total : Nat) (st : LoopState) :
    (paceAfter i total st).calls = st.calls := by
  simp [paceAfter]

@[simp] lemma updatedIds_paceAfter (i total : Nat) (st : LoopState) :
    updatedIds (paceAfter i total st).events = updatedIds st.events := by
  show updatedIds ((progressMaybe i total st).events ++ [Event.sleepPace]) = updatedIds st.events
  rw [updatedIds_append, updatedIds_progressMaybe]
  simp [updatedIds]

@[simp] lemma countHttp_paceAfter (i total : Nat) (st : LoopState) :
    countHttp (paceAfter i total st).events = countHttp st.events := by
  show countHttp ((progressMaybe i total st).events ++ [Event.sleepPace]) = countHttp st.events
  rw [countHttp_append, countHttp_progressMaybe]
  simp [countHttp, isHttp]

@[simp] lemma paceAfter_getLast (i total : Nat) (st : LoopState) :
    (paceAfter i total st).events.getLast? = some Event.sleepPace := by
  simp [paceAfter, List.getLast?_concat]

/-- Every successful outcome of `finishRow` either leaves the table and
updated count alone or applies exactly one UPDATE for this row and bumps
the counter; in both cases the iteration ends with the pacing sleep. -/
lemma finishRow_step (env : Env) (i total : Nat) (row : DbRow)
    (p : Option Coord × Option Coord) (st1 st' : LoopState)
    (h : finishRow env i total row p st1 = .ok st') :
    ((st'.db = st1.db ∧ st'.updated = st1.updated ∧
        updatedIds st'.events = updatedIds st1.events) ∨
      (∃ lat lng, p = (some lat, some lng) ∧
        st'.db = applyUpdate st1.db row.id lat lng env.now ∧
        st'.updated = st1.updated + 1 ∧
        updatedIds st'.events = updatedIds st1.events ++ [row.id])) ∧
    st'.events.getLast? = some .sleepPace := by
  rcases p with ⟨p1, p2⟩
  cases p1 with
  | none =>
    simp only [finishRow] at h
    cases h
    exact ⟨Or.inl ⟨by simp, by simp, by simp⟩, by simp⟩
  | some lat =>
    cases p2 with
    | none =>
      simp only [finishRow] at h
      cases h
      exact ⟨Or.inl ⟨by simp, by simp, by simp⟩, by simp⟩
    | some lng =>
      simp only [finishRow] at h
      by_cases hw : env.writeOk st1.updated
      · rw [if_pos hw] at h
        cases h
        refine ⟨Or.inr ⟨lat, lng, rfl, by simp, by simp, ?_⟩, by simp⟩
        rw [updatedIds_paceAfter, updatedIds_append]
        simp [updatedIds]
      · rw [if_neg hw] at h
        exact absurd h (by simp)

/-- Every successful iteration of the row loop either leaves the table and
updated count alone or applies exactly one UPDATE for this row. -/
lemma processRow_step (env : Env) (i total : Nat) (row : DbRow) (st st' : LoopState)
    (h : processRow env i total row st = .ok st') :
    (st'.db = st.db ∧ st'.updated = st.updated ∧
      updatedIds st'.events = updatedIds st.events) ∨
    (∃ lat lng, st'.db = applyUpdate st.db row.id lat lng env.now ∧
      st'.updated = st.updated + 1 ∧
      updatedIds st'.events = updatedIds st.events ++ [row.id]) := by
  have tail : ∀ (p : Option Coord × Option Coord) (st0 : LoopState),
      st0.db = st.db → st0.updated = st.updated →
      updatedIds st0.events = updatedIds st.events →
      finishRow env i total row p st0 = .ok st' →
      (st'.db = st.db ∧ st'.updated = st.updated ∧
        updatedIds st'.events = updatedIds st.events) ∨
      (∃ lat lng, st'.db = applyUpdate st.db row.id lat lng env.now ∧
        st'.updated = st.updated + 1 ∧
        updatedIds st'.events = updatedIds st.events ++ [row.id]) := by
    intro p st0 hdb hup hids hfin
    rcases (finishRow_step env i total row p st0 st' hfin).1 with
      ⟨h1, h2, h3⟩ | ⟨lat, lng, hp, h1, h2, h3⟩
    · exact Or.inl ⟨h1.trans hdb, h2.trans hup, h3.trans hids⟩
    · exact Or.inr ⟨lat, lng, by rw [h1, hdb], by rw [h2, hup],
        by rw [h3, hids]⟩
  unfold processRow at h
  by_cases hq : make_query row = ""
  · rw [if_pos hq] at h
    cases h
    exact Or.inl ⟨by simp, by simp, by simp⟩
  · rw [if_neg hq] at h
    cases hc : callResult env st.calls with
    | ok p =>
      rw [hc] at h
      exact tail p
        { st with calls := st.calls + 1,
                  events := st.events ++ [.httpCall (make_query row)] }
        rfl rfl (by simp [updatedIds_append, updatedIds]) h
    | error ge =>
      rw [hc] at h
      cases ge with
      | transport =>
        exact tail (none, none)
          { st with calls := st.calls + 1,
                    events := st.events ++ [.httpCall (make_query row)] }
          rfl rfl (by simp [updatedIds_append, updatedIds]) h
      | quotaExceeded s =>
        cases hc2 : callResult env (st.calls + 1) with
        | ok p =>
          rw [hc2] at h
          exact tail p
            { st with calls := st.calls + 2,
                      events := st.events ++ [.httpCall (make_query row),
                        .sleepQuota, .httpCall (make_query row)] }
            rfl rfl (by simp [updatedIds_append, updatedIds]) h
        | error e2 =>
          rw [hc2] at h
          exact Except.noConfusion h

/-- Reduction of `processRow` for a row with an empty query. -/
lemma processRow_empty (env : Env) (i total : Nat) (row : DbRow) (st : LoopState)
    (hq : make_query row = "") :
    processRow env i total row st = .ok (progressMaybe i total st) := by
  simp only [processRow]
  rw [if_pos hq]

/-- Reduction of `processRow` when the first call parses without error. -/
lemma processRow_ok_first (env : Env) (i total : Nat) (row : DbRow) (st : LoopState)
    (hq : make_query row ≠ "") (p : Option Coord × Option Coord)
    (hc : callResult env st.calls = .ok p) :
    processRow env i total row st =
      finishRow env i total row p
        { st with calls := st.calls + 1,
                  events := st.events ++ [.httpCall (make_query row)] } := by
  simp only [processRow]
  rw [if_neg hq, hc]

/-- Reduction of `processRow` when the first call fails with a
non-quota exception: the handler at line 77 catches it and treats the row
as unmatched. -/
lemma processRow_transport_first (env : Env) (i total : Nat) (row : DbRow) (st : LoopState)
    (hq : make_query row ≠ "")
    (hc : callResult env st.calls = .error .transport) :
    processRow env i total row st =
      finishRow env i total row (none, none)
        { st with calls := st.calls + 1,
                  events := st.events ++ [.httpCall (make_query row)] } := by
  simp only [processRow]
  rw [if_neg hq, hc]

/-- Reduction of `processRow` when the first call raises the quota
RuntimeError and the retry (after the 10s sleep) parses without error. -/
lemma processRow_quota_retry_ok (env : Env) (i total : Nat) (row : DbRow) (st : LoopState)
    (hq : make_query row ≠ "") (s : String)
    (hc : callResult env st.calls = .error (.quotaExceeded s))
    (p : Option Coord × Option Coord)
    (hc2 : callResult env (st.calls + 1) = .ok p) :
    processRow env i total row st =
      finishRow env i total row p
        { st with calls := st.calls + 2,
                  events := st.events ++ [.httpCall (make_query row),
                    .sleepQuota, .httpCall (make_query row)] } := by
  simp only [processRow]
  rw [if_neg hq, hc, hc2]

/-- Reduction of `processRow` when the first call raises the quota
RuntimeError and the retry raises as well: the exception escapes the
per-row handling. -/
lemma processRow_quota_retry_error (env : Env) (i total : Nat) (row : DbRow) (st : LoopState)
    (hq : make_query row ≠ "") (s : String)
    (hc : callResult env st.calls = .error (.quotaExceeded s))
    (e2 : GeoError) (hc2 : callResult env (st.calls + 1) = .error e2) :
    processRow env i total row st =
      .error (runErrorOf e2,
        { st with calls := st.calls + 2,
                  events := st.events ++ [.httpCall (make_query row),
                    .sleepQuota, .httpCall (make_query row)] }) := by
  simp only [processRow]
  rw [if_neg hq, hc, hc2]

/-- Membership in an updated table: a row matching the identifier carries
the new coordinates and timestamp, every other row is an original one. -/
lemma mem_applyUpdate (db : List DbRow) (id : Nat) (lat lng : Coord) (now : Nat)
    (r : DbRow) (h : r ∈ applyUpdate db id lat lng now) :
    (r.id = id ∧ r.latitude = some lat ∧ r.longitude = some lng ∧ r.updated_at = now) ∨
    (r.id ≠ id ∧ r ∈ db) := by
  unfold applyUpdate at h
  rcases List.mem_map.1 h with ⟨x, hx, rfl⟩
  by_cases hid : x.id = id
  · rw [if_pos hid]
    exact Or.inl ⟨hid, rfl, rfl, rfl⟩
  · rw [if_neg hid]
    exact Or.inr ⟨hid, hx⟩

/-- A whole run is either a committed loop result or a rollback to the
initial table. -/
lemma main_run_cases (env : Env) (db0 : List DbRow) :
    (∃ st, runLoop env (fetchRows db0).length (fetchRows db0) 1
        { db := db0, updated := 0, calls := 0, events := [] } = .ok st ∧
      main_run env db0 =
        { db := st.db, updated := st.updated, events := st.events,
          aborted := none, connClosed := true }) ∨
    (∃ e st, runLoop env (fetchRows db0).length (fetchRows db0) 1
        { db := db0, updated := 0, calls := 0, events := [] } = .error (e, st) ∧
      main_run env db0 =
        { db := db0, updated := st.updated, events := st.events,
          aborted := some e, connClosed := true }) := by
  cases h : runLoop env (fetchRows db0).length (fetchRows db0) 1
      { db := db0, updated := 0, calls := 0, events := [] } with
  | ok st =>
    refine Or.inl ⟨st, rfl, ?_⟩
    unfold main_run
    rw [h]
  | error p =>
    obtain ⟨e, st⟩ := p
    refine Or.inr ⟨e, st, rfl, ?_⟩
    unfold main_run
    rw [h]

/-- An aborted run always rolls the table back to its pre-run state. -/
lemma main_run_rollback (env : Env) (db0 : List DbRow) :
    ∀ e, (main_run env db0).aborted = some e → (main_run env db0).db = db0 := by
  rcases main_run_cases env db0 with ⟨st, -, hm⟩ | ⟨e, st, -, hm⟩ <;> rw [hm]
  · exact fun e he => absurd he (by simp)
  · exact fun e he => rfl

/-- The connection is closed on both exit paths of a run. -/
lemma main_run_connClosed (env : Env) (db0 : List DbRow) :
    (main_run env db0).connClosed = true := by
  rcases main_run_cases env db0 with ⟨st, -, hm⟩ | ⟨e, st, -, hm⟩ <;> rw [hm]

/-- Membership in the fetched candidate set is membership in the table
with a missing coordinate. -/
lemma mem_fetchRows (db : List DbRow) (r : DbRow) :
    r ∈ fetchRows db ↔ r ∈ db ∧ (r.latitude.isNone || r.longitude.isNone) = true := by
  simp [fetchRows, List.mem_filter]

/-- Reduction of `finishRow` on a resolved pair when the UPDATE succeeds. -/
lemma finishRow_update (env : Env) (i total : Nat) (row : DbRow)
    (lat lng : Coord) (st1 : LoopState) (hw : env.writeOk st1.updated = true) :
    finishRow env i total row (some lat, some lng) st1 =
      .ok (paceAfter i total
        { st1 with db := applyUpdate st1.db row.id lat lng env.now, updated := st1.updated + 1, events := st1.events ++ [.update row.id lat lng] }) := by
  simp only [finishRow]
  rw [if_pos hw]

/-- A successful iteration preserves the C8 invariant. -/
lemma processRow_updatedSet (env : Env) (i total : Nat) (row : DbRow)
    (st st' : LoopState) (h : processRow env i total row st = .ok st')
    (hI : UpdatedSet st) : UpdatedSet st' := by
  rcases processRow_step env i total row st st' h with
    ⟨hdb, -, hids⟩ | ⟨lat, lng, hdb, -, hids⟩
  · intro r hr hid
    rw [hdb] at hr
    rw [hids] at hid
    exact hI r hr hid
  · intro r hr hid
    rw [hdb] at hr
    rw [hids] at hid
    rcases mem_applyUpdate st.db row.id lat lng env.now r hr with
      ⟨-, h1, h2, -⟩ | ⟨hne, hmem⟩
    · exact ⟨by simp [h1], by simp [h2]⟩
    · rcases List.mem_append.1 hid with hid2 | hid2
      · exact hI r hmem hid2
      · exact absurd (List.mem_singleton.1 hid2) hne

/-- The row loop preserves any property preserved by each successful
iteration. -/
lemma runLoop_preserves (env : Env) (total : Nat) (P : LoopState → Prop)
    (hstep : ∀ i row st st', processRow env i total row st = .ok st' → P st → P st') :
    ∀ (rows : List DbRow) (i : Nat) (st st' : LoopState),
      runLoop env total rows i st = .ok st' → P st → P st'
  | [], _, st, st' => fun h hP => by
    cases h
    exact hP
  | row :: rest, i, st, st' => fun h hP => by
    unfold runLoop at h
    cases hp : processRow env i total row st with
    | error e =>
      rw [hp] at h
      exact absurd h (by simp)
    | ok st1 =>
      rw [hp] at h
      exact runLoop_preserves env total P hstep rest (i + 1) st1 st' h
        (hstep i row st st1 hp hP)

/-- An UPDATE preserves the row relation of C9 against the original
table. -/
lemma applyUpdate_forall₂ (db0 db : List DbRow) (id : Nat) (lat lng : Coord)
    (now : Nat) (h : List.Forall₂ keptOrSet db0 db) :
    List.Forall₂ keptOrSet db0 (applyUpdate db id lat lng now) := by
  unfold applyUpdate
  rw [List.forall₂_map_right_iff]
  refine List.Forall₂.imp ?_ h
  intro r0 r hr
  by_cases hid : r.id = id
  · rw [if_pos hid]
    exact ⟨hr.1, Or.inr ⟨rfl, rfl⟩⟩
  · rw [if_neg hid]
    exact hr

/-! ### Claims -/

/-- C3: the geocoder classifies every parsed provider response as the
spec states: status "OK" with a non-empty results array yields the first
result's coordinate pair; status "OVER_QUERY_LIMIT" or
"RESOURCE_EXHAUSTED" yields the QuotaExceeded error; any other status —
and "OK" with an empty results array — yields no match (absent
coordinates), not an error. -/
theorem C3_geocode_classification (d : GeoResponse) :
    (∀ (r : GeoResult) (rest : List GeoResult),
        d.status = "OK" → d.results = r :: rest →
        geocode d = .ok (some r.location.lat, some r.location.lng)) ∧
    ((d.status = "OVER_QUERY_LIMIT" ∨ d.status = "RESOURCE_EXHAUSTED") →
        geocode d = .error (.quotaExceeded d.status)) ∧
    (d.status ≠ "OK" → d.status ≠ "OVER_QUERY_LIMIT" → d.status ≠ "RESOURCE_EXHAUSTED" →
        geocode d = .ok (none, none)) ∧
    (d.status = "OK" → d.results = [] → geocode d = .ok (none, none)) := by
  refine ⟨fun r rest hok hres => geocode_ok_head d hok r rest hres,
    fun h => geocode_quota d h,
    fun h1 h2 h3 => geocode_other d h1 h2 h3,
    fun hok hres => geocode_ok_empty d hok hres⟩

/-- Witness for C3 at concrete responses: an "OK" response with one
result yields its coordinates, a quota response errors, and
"ZERO_RESULTS" yields no match. -/
theorem C3_geocode_classification_witness :
    geocode { status := "OK", results := [{ location := { lat := 2, lng := 3 } }] }
      = .ok (some 2, some 3) ∧
    geocode { status := "OVER_QUERY_LIMIT", results := [] }
      = .error (.quotaExceeded "OVER_QUERY_LIMIT") ∧
    geocode { status := "ZERO_RESULTS", results := [] } = .ok (none, none) :=
  ⟨(C3_geocode_classification _).1 _ [] rfl rfl,
   (C3_geocode_classification _).2.1 (Or.inl rfl),
   (C3_geocode_classification _).2.2.1 (by decide) (by decide) (by decide)⟩

/-- C4: the query builder concatenates, in the fixed order name, address,
city, state, zip, exactly the present and non-empty fields joined by
", " (a pure function of the row); in particular the Maple Court example
yields exactly "Maple Court, 10 Elm St, Springfield, 00001". -/
theorem C4_make_query (row : DbRow) :
    make_query row = String.intercalate ", "
      (([row.name, row.address, row.city, row.state, row.zip_code].filterMap id).filter
        (fun s => s ≠ "")) ∧
    make_query
      { id := 0, name := some "Maple Court", address := some "10 Elm St",
        city := some "Springfield", state := none, zip_code := some "00001",
        latitude := none, longitude := none, updated_at := 0 }
      = "Maple Court, 10 Elm St, Springfield, 00001" := by
  constructor
  · unfold make_query
    rw [foldl_parts]
    rfl
  · decide

/-- C6: a row whose built query string is empty makes no outbound HTTP
call, leaves the table and the updated counter unchanged, and the loop
proceeds (the iteration succeeds rather than aborting). -/
theorem C6_empty_query (env : Env) (i total : Nat) (row : DbRow) (st : LoopState)
    (h : make_query row = "") :
    processRow env i total row st = .ok (progressMaybe i total st) ∧
    (progressMaybe i total st).db = st.db ∧
    (progressMaybe i total st).updated = st.updated ∧
    countHttp (progressMaybe i total st).events = countHttp st.events :=
  ⟨processRow_empty env i total row st h, by simp, by simp, by simp⟩

/-- Witness for C6: the all-blank row builds the empty query and its
iteration issues no HTTP call and no update. -/
theorem C6_empty_query_witness :
    make_query rowBlank = "" ∧
    processRow envDown 1 1 rowBlank (initState [rowBlank]) =
      .ok (progressMaybe 1 1 (initState [rowBlank])) ∧
    countHttp (progressMaybe 1 1 (initState [rowBlank])).events =
      countHttp (initState [rowBlank]).events :=
  ⟨by decide,
   (C6_empty_query envDown 1 1 rowBlank (initState [rowBlank]) (by decide)).1,
   (C6_empty_query envDown 1 1 rowBlank (initState [rowBlank]) (by decide)).2.2.2⟩

/-- C7: a non-quota failure of the first geocode call (transport failure
or malformed body) is contained within the row's iteration: the iteration
succeeds, the table and updated counter are unchanged, and the iteration
still ends with the pacing sleep. -/
theorem C7_transport_contained (env : Env) (i total : Nat) (row : DbRow) (st : LoopState)
    (hq : make_query row ≠ "")
    (hc : callResult env st.calls = .error .transport) :
    processRow env i total row st =
      .ok (paceAfter i total
        { st with calls := st.calls + 1,
                  events := st.events ++ [.httpCall (make_query row)] }) ∧
    (paceAfter i total
        { st with calls := st.calls + 1,
                  events := st.events ++ [.httpCall (make_query row)] }).db = st.db ∧
    (paceAfter i total
        { st with calls := st.calls + 1,
                  events := st.events ++ [.httpCall (make_query row)] }).updated
      = st.updated := by
  refine ⟨?_, by simp, by simp⟩
  rw [processRow_transport_first env i total row st hq hc]
  rfl

/-- Witness for C7: with the transport layer down, the Maple Court row's
iteration completes without an update and without aborting. -/
theorem C7_transport_contained_witness :
    processRow envDown 1 1 rowMaple (initState [rowMaple]) =
      .ok (paceAfter 1 1
        { initState [rowMaple] with calls := 1, events := [.httpCall (make_query rowMaple)] }) ∧
    (paceAfter 1 1
        { initState [rowMaple] with calls := 1, events := [.httpCall (make_query rowMaple)] }).updated = 0 :=
  ⟨(C7_transport_contained envDown 1 1 rowMaple (initState [rowMaple])
      (by decide) rfl).1,
   (C7_transport_contained envDown 1 1 rowMaple (initState [rowMaple])
      (by decide) rfl).2.2⟩

/-- C2: any error escaping the per-row containment makes the run abort
with a full rollback — the committed table equals the pre-run table, no
matter how many updates had succeeded in-memory — and the connection is
closed on every exit path, abort or commit. -/
theorem C2_fatal_rollback (env : Env) (db0 : List DbRow) :
    (∀ e, (main_run env db0).aborted = some e → (main_run env db0).db = db0) ∧
    (main_run env db0).connClosed = true :=
  ⟨main_run_rollback env db0, main_run_connClosed env db0⟩

/-- Witness for C2: the provider matches every row but the store rejects
the second UPDATE; the run aborts with a store error, the in-memory
counter had reached 1, and the committed table is unchanged. -/
theorem C2_fatal_rollback_witness :
    (main_run envStoreFail [rowMaple, rowHalf]).aborted = some RunError.store ∧
    (main_run envStoreFail [rowMaple, rowHalf]).updated = 1 ∧
    (main_run envStoreFail [rowMaple, rowHalf]).db = [rowMaple, rowHalf] ∧
    (main_run envStoreFail [rowMaple, rowHalf]).connClosed = true :=
  ⟨by decide, by decide,
   (C2_fatal_rollback envStoreFail [rowMaple, rowHalf]).1 RunError.store (by decide),
   (C2_fatal_rollback envStoreFail [rowMaple, rowHalf]).2⟩

/-- C1 (corrected), counterexample: with the provider answering
OVER_QUERY_LIMIT on both the first call and the retry for the first row,
the run aborts — `aborted` is the quota error, the table is rolled back,
and the trace stops inside row 1 (no events for row 2, no warning and no
progression to the next row), contradicting the claim that the run is
never aborted by a geocoding failure on an individual row. -/
theorem C1_counterexample :
    (fetchRows [rowMaple, rowHalf]).length = 2 ∧
    (main_run envQuota [rowMaple, rowHalf]).aborted =
      some (RunError.quota "OVER_QUERY_LIMIT") ∧
    (main_run envQuota [rowMaple, rowHalf]).db = [rowMaple, rowHalf] ∧
    (main_run envQuota [rowMaple, rowHalf]).events =
      [.httpCall "Maple Court, 10 Elm St, Springfield, 00001", .sleepQuota,
       .httpCall "Maple Court, 10 Elm St, Springfield, 00001"] := by
  exact ⟨by decide, by decide, by decide, by decide⟩

/-- C1 (amended): if the first geocode call of a row raises the quota
RuntimeError and the retried call fails again — with QuotaExceeded or any
other error — the exception escapes the per-row handling: the iteration
returns that error (no failed-to-geocode containment), and any aborted run
leaves the table exactly as it was before the run. -/
theorem C1_retry_failure_aborts (env : Env) (i total : Nat) (row : DbRow) (st : LoopState)
    (hq : make_query row ≠ "") (s : String)
    (hc : callResult env st.calls = .error (.quotaExceeded s))
    (e2 : GeoError) (hc2 : callResult env (st.calls + 1) = .error e2) :
    processRow env i total row st =
      .error (runErrorOf e2,
        { st with calls := st.calls + 2, events := st.events ++ [.httpCall (make_query row), .sleepQuota, .httpCall (make_query row)] }) ∧
    ∀ (db0 : List DbRow) (e : RunError),
      (main_run env db0).aborted = some e → (main_run env db0).db = db0 := by
  refine ⟨processRow_quota_retry_error env i total row st hq s hc e2 hc2, ?_⟩
  intro db0 e
  exact main_run_rollback env db0 e

/-- Witness for C1's amended statement: under the always-quota provider,
row 1's iteration returns the propagated quota error. -/
theorem C1_retry_failure_aborts_witness :
    processRow envQuota 1 2 rowMaple (initState [rowMaple, rowHalf]) =
      .error (runErrorOf (.quotaExceeded "OVER_QUERY_LIMIT"),
        { initState [rowMaple, rowHalf] with calls := 2, events := [.httpCall (make_query rowMaple), .sleepQuota, .httpCall (make_query rowMaple)] }) :=
  (C1_retry_failure_aborts envQuota 1 2 rowMaple (initState [rowMaple, rowHalf])
    (by decide) "OVER_QUERY_LIMIT" rfl (.quotaExceeded "OVER_QUERY_LIMIT") rfl).1

/-- C5 (corrected), counterexample: a run over a single row whose query is
empty processes the row (the progress line for 1/1 appears, the run
commits) yet records no pacing sleep at all — the 0.15s pause is skipped
for empty-query rows, contradicting "after processing every row,
regardless of outcome". -/
theorem C5_counterexample :
    (fetchRows [rowBlank]).length = 1 ∧
    (main_run envDown [rowBlank]).aborted = none ∧
    (main_run envDown [rowBlank]).events = [Event.progress 1 1 0] ∧
    Event.sleepPace ∉ (main_run envDown [rowBlank]).events := by
  exact ⟨by decide, by decide, by decide, by decide⟩

/-- C5 (amended): the pacing sleep is unconditional for every row whose
built query is non-empty — every successful iteration of such a row ends
with the pacing sleep, whatever its outcome (updated, no match, failed
geocode, with or without the quota backoff pause) — while a row with an
empty query skips it. -/
theorem C5_pacing_amended (env : Env) (i total : Nat) (row : DbRow) (st st' : LoopState)
    (h : processRow env i total row st = .ok st') :
    (make_query row ≠ "" → st'.events.getLast? = some Event.sleepPace) ∧
    (make_query row = "" → countPace st'.events = countPace st.events) := by
  constructor
  · intro hq
    cases hc : callResult env st.calls with
    | ok p =>
      rw [processRow_ok_first env i total row st hq p hc] at h
      exact (finishRow_step env i total row p _ st' h).2
    | error ge =>
      cases ge with
      | transport =>
        rw [processRow_transport_first env i total row st hq hc] at h
        exact (finishRow_step env i total row (none, none) _ st' h).2
      | quotaExceeded s =>
        cases hc2 : callResult env (st.calls + 1) with
        | ok p =>
          rw [processRow_quota_retry_ok env i total row st hq s hc p hc2] at h
          exact (finishRow_step env i total row p _ st' h).2
        | error e2 =>
          rw [processRow_quota_retry_error env i total row st hq s hc e2 hc2] at h
          exact absurd h (by simp)
  · intro hq
    rw [processRow_empty env i total row st hq] at h
    cases h
    simp

/-- Witness for C5's amended statement: the Maple Court iteration (query
non-empty, row updated) ends with the pacing sleep. -/
theorem C5_pacing_amended_witness :
    stMapleDone.events.getLast? = some Event.sleepPace :=
  (C5_pacing_amended envMatch 1 1 rowMaple (initState [rowMaple]) stMapleDone rfl).1
    (by decide)

/-- C10: the selection predicate admits rows that already have exactly one
coordinate, and a successful geocode of such a row issues an UPDATE that
overwrites both coordinate columns (and the timestamp) with the provider's
values, regardless of what was stored before. -/
theorem C10_overwrite_both (env : Env) (i total : Nat) (row : DbRow) (st : LoopState)
    (hq : make_query row ≠ "") (d : GeoResponse)
    (ho : env.geocodeOracle st.calls = .response d)
    (hok : d.status = "OK") (r : GeoResult) (rest : List GeoResult)
    (hres : d.results = r :: rest) (hw : env.writeOk st.updated = true) :
    (∀ (db : List DbRow) (x : DbRow), x ∈ db →
        x.latitude = none ∨ x.longitude = none → x ∈ fetchRows db) ∧
    processRow env i total row st =
      .ok (paceAfter i total
        { st with db := applyUpdate st.db row.id r.location.lat r.location.lng env.now, updated := st.updated + 1, calls := st.calls + 1, events := (st.events ++ [.httpCall (make_query row)]) ++ [.update row.id r.location.lat r.location.lng] }) ∧
    ∀ x ∈ applyUpdate st.db row.id r.location.lat r.location.lng env.now,
      x.id = row.id →
        x.latitude = some r.location.lat ∧ x.longitude = some r.location.lng ∧
        x.updated_at = env.now := by
  refine ⟨?_, ?_, ?_⟩
  · intro db x hx hcond
    rw [mem_fetchRows]
    rcases hcond with h | h <;> simp [hx, h]
  · have hc : callResult env st.calls = .ok (some r.location.lat, some r.location.lng) := by
      unfold callResult
      rw [ho]
      exact geocode_ok_head d hok r rest hres
    rw [processRow_ok_first env i total row st hq _ hc]
    exact finishRow_update env i total row r.location.lat r.location.lng
      { st with calls := st.calls + 1, events := st.events ++ [.httpCall (make_query row)] } hw
  · intro x hx hid
    rcases mem_applyUpdate st.db row.id r.location.lat r.location.lng env.now x hx with
      ⟨-, h1, h2, h3⟩ | ⟨hne, -⟩
    · exact ⟨h1, h2, h3⟩
    · exact absurd hid hne

/-- Witness for C10: the half-filled row (longitude present, latitude
missing) is selected, and after its successful geocode both coordinates
hold the provider's values — the old longitude 7 is gone. -/
theorem C10_overwrite_both_witness :
    rowHalf ∈ fetchRows [rowHalf] ∧
    ∀ x ∈ applyUpdate [rowHalf] rowHalf.id (2 : Coord) (3 : Coord) 9,
      x.id = rowHalf.id →
        x.latitude = some 2 ∧ x.longitude = some 3 ∧ x.updated_at = 9 :=
  ⟨(C10_overwrite_both envMatch 1 1 rowHalf (initState [rowHalf]) (by decide)
      respMatch rfl rfl { location := { lat := 2, lng := 3 } } [] rfl rfl).1
      [rowHalf] rowHalf (by decide) (Or.inl rfl),
   (C10_overwrite_both envMatch 1 1 rowHalf (initState [rowHalf]) (by decide)
      respMatch rfl rfl { location := { lat := 2, lng := 3 } } [] rfl rfl).2.2⟩

/-- C8: after a committed run, every row of the second run's candidate set
(the rows the selection predicate still admits) is still missing a
coordinate, and none of them is a row that received an UPDATE in the first
run — so a second run with unchanged external state updates at most the
rows still missing coordinates. -/
theorem C8_idempotence (env : Env) (db0 : List DbRow)
    (hok : (main_run env db0).aborted = none) :
    ∀ r ∈ fetchRows (main_run env db0).db,
      (r.latitude = none ∨ r.longitude = none) ∧
      r.id ∉ updatedIds (main_run env db0).events := by
  rcases main_run_cases env db0 with ⟨st, hrun, hm⟩ | ⟨e, st, hrun, hm⟩
  swap
  · rw [hm] at hok
    exact absurd hok (by simp)
  rw [hm]
  intro r hr
  rcases (mem_fetchRows st.db r).1 hr with ⟨hmem, hpred⟩
  have hnone : r.latitude = none ∨ r.longitude = none := by
    cases hl : r.latitude with
    | none => exact Or.inl rfl
    | some a =>
      cases hg : r.longitude with
      | none => exact Or.inr rfl
      | some b =>
        rw [hl, hg] at hpred
        exact absurd hpred (by simp)
  refine ⟨hnone, ?_⟩
  intro hid
  have hI : UpdatedSet st := by
    refine runLoop_preserves env (fetchRows db0).length UpdatedSet
      (fun i row st1 st1' hp hP => processRow_updatedSet env i _ row st1 st1' hp hP)
      (fetchRows db0) 1 _ st hrun ?_
    intro r2 hr2 hid2
    exact absurd hid2 (by simp [updatedIds])
  rcases hI r hmem hid with ⟨h1, h2⟩
  rcases hnone with h | h
  · rw [h] at h1
    exact absurd h1 (by simp)
  · rw [h] at h2
    exact absurd h2 (by simp)

/-- Witness for C8: after the run that geocodes Maple Court and skips the
blank row, the blank row is still a candidate, still missing both
coordinates, and was never updated. -/
theorem C8_idempotence_witness :
    (rowBlank.latitude = none ∨ rowBlank.longitude = none) ∧
    rowBlank.id ∉ updatedIds (main_run envMatch [rowMaple, rowBlank]).events :=
  C8_idempotence envMatch [rowMaple, rowBlank] (by decide) rowBlank (by decide)

/-- C9: the geocoder returns either both coordinates or neither (never a
mixed pair), and after any run — committed or rolled back — every row of
the final table either kept its original coordinate columns or had both
set; no row ever has exactly one coordinate written. -/
theorem C9_no_single_coordinate (env : Env) (db0 : List DbRow) (d : GeoResponse) :
    (∀ p, geocode d = .ok p →
      (p.1.isSome ∧ p.2.isSome) ∨ (p.1 = none ∧ p.2 = none)) ∧
    List.Forall₂ keptOrSet db0 (main_run env db0).db := by
  have hrefl : List.Forall₂ keptOrSet db0 db0 :=
    List.forall₂_same.2 (fun x _ => ⟨rfl, Or.inl ⟨rfl, rfl⟩⟩)
  constructor
  · intro p hp
    unfold geocode at hp
    split at hp
    · cases hp
      exact Or.inl ⟨rfl, rfl⟩
    · split at hp
      · exact absurd hp (by simp)
      · cases hp
        exact Or.inr ⟨rfl, rfl⟩
  · rcases main_run_cases env db0 with ⟨st, hrun, hm⟩ | ⟨e, st, hrun, hm⟩
    · rw [hm]
      refine runLoop_preserves env (fetchRows db0).length
        (fun st1 => List.Forall₂ keptOrSet db0 st1.db) ?_
        (fetchRows db0) 1 _ st hrun hrefl
      intro i row st1 st1' hp hP
      rcases processRow_step env i _ row st1 st1' hp with
        ⟨hdb, -, -⟩ | ⟨lat, lng, hdb, -, -⟩
      · rw [hdb]
        exact hP
      · rw [hdb]
        exact applyUpdate_forall₂ db0 st1.db row.id lat lng env.now hP
    · rw [hm]
      exact hrefl

/-- Witness for C9: the "OK" response with one result yields a pair with
both coordinates present. -/
theorem C9_no_single_coordinate_witness :
    (((some (2 : Coord), some (3 : Coord)).1.isSome ∧
      ((some (2 : Coord), some (3 : Coord))).2.isSome) ∨
     ((some (2 : Coord), some (3 : Coord)).1 = none ∧
      ((some (2 : Coord), some (3 : Coord))).2 = none)) :=
  (C9_no_single_coordinate envMatch [] respMatch).1 (some 2, some 3) rfl

end GeocodeLL
